/-
Verification of the WWSNB reaction subsystem (src/modules/reactions.ts).

The reaction state of the program is a JavaScript Map from a message id to a
Map from an emoji to the array of user names who reacted.  JavaScript Maps
preserve insertion order and have unique keys; we embed them as association
lists (List (String × _)) whose operations mirror Map.get / Map.set /
Map.delete.  JSON documents are embedded by the inductive JVal; JSON text
exchanged on the wire is parsed by an executable parser (parseJson) that
models JSON.parse on the subset of JSON this program exchanges (strings,
arrays, objects, integer numbers and literals).
-/
import Mathlib

set_option autoImplicit false
set_option maxRecDepth 100000

universe u

/-- Embedding of a JSON document, as produced by JSON.parse. -/
inductive JVal : Type where
  | jnull : JVal
  | jbool : Bool → JVal
  | jnum : Int → JVal
  | jstr : String → JVal
  | jarr : List JVal → JVal
  | jobj : List (String × JVal) → JVal

/-- Models Map.get and JavaScript object property lookup: the value stored
under the first occurrence of the key, if any. -/
def alookup {α : Type u} (k : String) : List (String × α) → Option α
  | [] => none
  | (k', v) :: rest => if k' = k then some v else alookup k rest

/-- Models Map.set: replace the value at an existing key in place, otherwise
append the new entry at the end (JavaScript Maps keep insertion order). -/
def aset {α : Type u} (k : String) (v : α) : List (String × α) → List (String × α)
  | [] => [(k, v)]
  | (k', v') :: rest => if k' = k then (k, v) :: rest else (k', v') :: aset k v rest

/-- Models Map.delete: remove the entry for the key (Map keys are unique, so
removing every occurrence agrees with removing the single entry). -/
def adel {α : Type u} (k : String) : List (String × α) → List (String × α)
  | [] => []
  | (k', v) :: rest => if k' = k then adel k rest else (k', v) :: adel k rest

theorem alookup_nil {α : Type u} (k : String) : alookup k ([] : List (String × α)) = none := rfl

theorem alookup_cons {α : Type u} (k k' : String) (v : α) (l : List (String × α)) :
    alookup k ((k', v) :: l) = if k' = k then some v else alookup k l := rfl

theorem aset_nil {α : Type u} (k : String) (v : α) :
    aset k v ([] : List (String × α)) = [(k, v)] := rfl

theorem aset_cons {α : Type u} (k k' : String) (v v' : α) (l : List (String × α)) :
    aset k v ((k', v') :: l) = if k' = k then (k, v) :: l else (k', v') :: aset k v l := rfl

theorem adel_cons {α : Type u} (k k' : String) (v : α) (l : List (String × α)) :
    adel k ((k', v) :: l) = if k' = k then adel k l else (k', v) :: adel k l := rfl

theorem alookup_aset {α : Type u} (k k' : String) (v : α) (l : List (String × α)) :
    alookup k' (aset k v l) = if k' = k then some v else alookup k' l := by
  induction l with
  | nil =>
    rw [aset_nil, alookup_cons, alookup_nil]
    by_cases h : k' = k
    · rw [if_pos h.symm, if_pos h]
    · rw [if_neg (fun hh => h hh.symm), if_neg h]
  | cons p rest ih =>
    obtain ⟨k₀, v₀⟩ := p
    by_cases h0 : k₀ = k
    · subst h0
      rw [aset_cons, if_pos rfl, alookup_cons, alookup_cons]
      by_cases h : k₀ = k'
      · rw [if_pos h, if_pos h.symm]
      · rw [if_neg h, if_neg h, if_neg (fun hh => h hh.symm)]
    · rw [aset_cons, if_neg h0, alookup_cons, alookup_cons, ih]
      by_cases h1 : k₀ = k'
      · rw [if_pos h1, if_pos h1, if_neg (fun hh => h0 (h1.trans hh))]
      · rw [if_neg h1, if_neg h1]

theorem alookup_adel {α : Type u} (k k' : String) (l : List (String × α)) :
    alookup k' (adel k l) = if k' = k then none else alookup k' l := by
  induction l with
  | nil =>
    by_cases h : k' = k <;> simp [adel, alookup, h]
  | cons p rest ih =>
    obtain ⟨k₀, v₀⟩ := p
    by_cases h0 : k₀ = k
    · subst h0
      rw [adel_cons, if_pos rfl, ih, alookup_cons]
      by_cases h : k' = k₀
      · rw [if_pos h, if_pos h]
      · rw [if_neg h, if_neg h, if_neg (fun hh => h hh.symm)]
    · rw [adel_cons, if_neg h0, alookup_cons, ih, alookup_cons]
      by_cases h1 : k₀ = k'
      · rw [if_pos h1, if_pos h1, if_neg (fun h2 => h0 (h1.trans h2))]
      · rw [if_neg h1, if_neg h1]

theorem alookup_append {α : Type u} (k : String) (l₁ l₂ : List (String × α)) :
    alookup k (l₁ ++ l₂) =
      match alookup k l₁ with
      | some v => some v
      | none => alookup k l₂ := by
  induction l₁ with
  | nil => simp [alookup]
  | cons p rest ih =>
    by_cases h : p.1 = k <;> simp [alookup, h, ih]

theorem alookup_map_value {α β : Type u} (k : String) (f : α → β) (l : List (String × α)) :
    alookup k (l.map (fun p => (p.1, f p.2))) = (alookup k l).map f := by
  induction l with
  | nil => simp [alookup]
  | cons p rest ih =>
    by_cases h : p.1 = k <;> simp [alookup, h, ih]

theorem alookup_mem {α : Type u} {k : String} {v : α} {l : List (String × α)} :
    alookup k l = some v → (k, v) ∈ l := by
  induction l with
  | nil => simp [alookup]
  | cons p rest ih =>
    obtain ⟨k₀, v₀⟩ := p
    by_cases h : k₀ = k
    · subst h
      rw [alookup, if_pos rfl]
      intro hv
      cases hv
      exact List.mem_cons_self _ _
    · rw [alookup, if_neg h]
      intro hv
      exact List.mem_cons_of_mem _ (ih hv)

theorem alookup_eq_none_of_not_mem {α : Type u} {k : String} {l : List (String × α)}
    (h : k ∉ l.map Prod.fst) : alookup k l = none := by
  induction l with
  | nil => rfl
  | cons p rest ih =>
    rw [alookup, if_neg (fun hh => h (by simp [hh]))]
    exact ih (fun hm => h (by simp [hm]))

theorem not_mem_of_alookup_eq_none {α : Type u} {k : String} {l : List (String × α)}
    (h : alookup k l = none) : k ∉ l.map Prod.fst := by
  induction l with
  | nil => simp
  | cons p rest ih =>
    by_cases hp : p.1 = k
    · rw [alookup, if_pos hp] at h
      exact absurd h (by simp)
    · rw [alookup, if_neg hp] at h
      simp only [List.map_cons, List.mem_cons]
      rintro (he | hm)
      · exact hp he.symm
      · exact ih h hm

theorem alookup_swap {α : Type u} (a b : String × α) (l : List (String × α))
    (hne : a.1 ≠ b.1) (k : String) :
    alookup k (a :: b :: l) = alookup k (b :: a :: l) := by
  by_cases ha : a.1 = k <;> by_cases hb : b.1 = k
  · exact absurd (ha.trans hb.symm) hne
  · simp [alookup, ha, hb]
  · simp [alookup, ha, hb]
  · simp [alookup, ha, hb]

theorem perm_alookup {α : Type u} {l₁ l₂ : List (String × α)} (hp : l₁.Perm l₂) (k : String) :
    (l₁.map Prod.fst).Nodup → alookup k l₁ = alookup k l₂ := by
  induction hp with
  | nil => intro _; rfl
  | cons x _ ih =>
    intro hnd
    by_cases h : x.1 = k
    · simp [alookup, h]
    · simp only [alookup, if_neg h]
      exact ih (by simpa using (List.nodup_cons.mp (by simpa using hnd)).2)
  | swap x y l =>
    intro hnd
    have hy : y.1 ∉ ((x :: l).map Prod.fst) := by
      have := hnd
      simp only [List.map_cons, List.nodup_cons] at this
      intro hm
      exact this.1 (by simpa using hm)
    refine alookup_swap _ _ _ (fun he => hy ?_) k
    simp [he]
  | trans h₁ _ ih₁ ih₂ =>
    intro hnd
    exact (ih₁ hnd).trans (ih₂ (((h₁.map Prod.fst).nodup_iff).mp hnd))

/-- Models the last value stored under a key in a raw key-value listing
(used for the duplicate-key behaviour of JavaScript object construction:
a later duplicate key overwrites the value). -/
def alookupLast {α : Type u} (k : String) : List (String × α) → Option α
  | [] => none
  | (k', v) :: rest =>
    match alookupLast k rest with
    | some w => some w
    | none => if k' = k then some v else none

/-- Models duplicate-key collapsing when a JavaScript object is built from a
key-value sequence (JSON.parse of an object literal, Object.fromEntries):
the first occurrence keeps its position, the last value wins. -/
def dedupKeys {α : Type u} : List (String × α) → List (String × α)
  | [] => []
  | (k, v) :: rest => (k, (alookupLast k rest).getD v) :: adel k (dedupKeys rest)

theorem alookupLast_cons {α : Type u} (k k' : String) (v : α) (l : List (String × α)) :
    alookupLast k ((k', v) :: l) =
      match alookupLast k l with
      | some w => some w
      | none => if k' = k then some v else none := rfl

theorem alookupLast_eq_none_of_not_mem {α : Type u} {k : String} {l : List (String × α)}
    (h : k ∉ l.map Prod.fst) : alookupLast k l = none := by
  induction l with
  | nil => rfl
  | cons p rest ih =>
    obtain ⟨k₀, v₀⟩ := p
    rw [alookupLast_cons, ih (fun hm => h (by simp [hm]))]
    exact if_neg (fun he => h (by simp [he]))

theorem adel_of_not_mem {α : Type u} {k : String} {l : List (String × α)}
    (h : k ∉ l.map Prod.fst) : adel k l = l := by
  induction l with
  | nil => rfl
  | cons p rest ih =>
    obtain ⟨k₀, v₀⟩ := p
    rw [adel_cons, if_neg (fun he => h (by simp [he])), ih (fun hm => h (by simp [hm]))]

theorem dedupKeys_of_nodupKeys {α : Type u} {l : List (String × α)}
    (h : (l.map Prod.fst).Nodup) : dedupKeys l = l := by
  induction l with
  | nil => rfl
  | cons p rest ih =>
    obtain ⟨k, v⟩ := p
    have h' : (k :: rest.map Prod.fst).Nodup := by simpa using h
    have hk : k ∉ rest.map Prod.fst := (List.nodup_cons.mp h').1
    rw [dedupKeys, alookupLast_eq_none_of_not_mem hk, ih (List.nodup_cons.mp h').2]
    rw [adel_of_not_mem hk]
    rfl

/-- Does this string name a JavaScript array index (a canonical numeric
string below 2^32 - 1)?  Such object keys are enumerated first, in numeric
order. -/
def strToNat? (s : String) : Option Nat :=
  if !s.data.isEmpty && s.data.all Char.isDigit then
    some (s.data.foldl (fun a c => a * 10 + (c.toNat - 48)) 0)
  else none

def isArrayIndexKey (s : String) : Bool :=
  match strToNat? s with
  | some n => decide (n < 4294967295) && (s == Nat.repr n)
  | none => false

def arrayIndexVal (s : String) : Nat := (strToNat? s).getD 0

/-- Models the own-property order of a JavaScript object created from a
key-value sequence: duplicate keys collapsed (last value wins, first
position kept), then array-index keys first in ascending numeric order,
then the remaining keys in insertion order. -/
def jsObjCanon {α : Type u} (l : List (String × α)) : List (String × α) :=
  List.insertionSort (fun p q => arrayIndexVal p.1 ≤ arrayIndexVal q.1)
      ((dedupKeys l).filter (fun p => isArrayIndexKey p.1)) ++
    (dedupKeys l).filter (fun p => !isArrayIndexKey p.1)

theorem jsObjCanon_perm_of_nodupKeys {α : Type u} {l : List (String × α)}
    (h : (l.map Prod.fst).Nodup) : (jsObjCanon l).Perm l := by
  unfold jsObjCanon
  rw [dedupKeys_of_nodupKeys h]
  exact ((List.perm_insertionSort _ _).append_right _).trans (List.filter_append_perm _ _)

theorem alookup_jsObjCanon {α : Type u} {l : List (String × α)}
    (h : (l.map Prod.fst).Nodup) (k : String) : alookup k (jsObjCanon l) = alookup k l := by
  have hp := jsObjCanon_perm_of_nodupKeys h
  exact perm_alookup hp k (((hp.map Prod.fst).nodup_iff).mpr h)

mutual

/-- Models the JavaScript String() coercion of a parsed JSON value (used by
JSON.parse when its argument is not already a string).  Array elements are
joined with commas; an object displays as [object Object]. -/
def jsToString : JVal → String
  | .jnull => "null"
  | .jbool true => "true"
  | .jbool false => "false"
  | .jnum i => toString i
  | .jstr s => s
  | .jarr xs => String.intercalate "," (jsToStringList xs)
  | .jobj _ => "[object Object]"

def jsToStringList : List JVal → List String
  | [] => []
  | x :: xs => jsToString x :: jsToStringList xs

end

/-- Models Object.entries: own enumerable properties of a value.  Objects
list their fields, arrays and strings list their indexed elements, and
primitive values have none. -/
def jsEntries : JVal → List (String × JVal)
  | .jobj fields => fields
  | .jarr xs => xs.enum.map (fun p => (Nat.repr p.1, p.2))
  | .jstr s => s.data.enum.map (fun p => (Nat.repr p.1, JVal.jstr (String.singleton p.2)))
  | _ => []

def isWsChar (c : Char) : Bool := c = ' ' || c = '\t' || c = '\n' || c = '\r'

def skipWs (cs : List Char) : List Char := cs.dropWhile isWsChar

def hexVal (c : Char) : Option Nat :=
  if c.isDigit then some (c.toNat - 48)
  else if 'a' ≤ c ∧ c ≤ 'f' then some (c.toNat - 87)
  else if 'A' ≤ c ∧ c ≤ 'F' then some (c.toNat - 55)
  else none

def escChar (e : Char) : Option Char :=
  if e = '"' then some '"'
  else if e = '\\' then some '\\'
  else if e = '/' then some '/'
  else if e = 'b' then some (Char.ofNat 8)
  else if e = 'f' then some (Char.ofNat 12)
  else if e = 'n' then some (Char.ofNat 10)
  else if e = 'r' then some (Char.ofNat 13)
  else if e = 't' then some (Char.ofNat 9)
  else none

/-- Models reading a JSON string body (after the opening quote), returning
the decoded characters and the remaining input.  Surrogate pair escapes are
not recombined (the inputs this program exchanges contain none). -/
def parseJStr : Nat → List Char → Option (List Char × List Char)
  | 0, _ => none
  | _ + 1, [] => none
  | fuel + 1, c :: rest =>
    if c = '"' then some ([], rest)
    else if c = '\\' then
      match rest with
      | 'u' :: a :: b :: c2 :: d :: rest3 =>
        match hexVal a, hexVal b, hexVal c2, hexVal d with
        | some ha, some hb, some hc, some hd =>
          match parseJStr fuel rest3 with
          | some (out, rem) => some (Char.ofNat (((ha * 16 + hb) * 16 + hc) * 16 + hd) :: out, rem)
          | none => none
        | _, _, _, _ => none
      | e :: rest2 =>
        match escChar e with
        | some ce =>
          match parseJStr fuel rest2 with
          | some (out, rem) => some (ce :: out, rem)
          | none => none
        | none => none
      | [] => none
    else if c.toNat < 32 then none
    else
      match parseJStr fuel rest with
      | some (out, rem) => some (c :: out, rem)
      | none => none

def digitsToNat (ds : List Char) : Nat := ds.foldl (fun a c => a * 10 + (c.toNat - 48)) 0

def startsFracOrExp : List Char → Bool
  | c :: _ => c = '.' || c = 'e' || c = 'E'
  | [] => false

/-- Models reading a JSON number, restricted to the integers this program
could exchange (fractional and exponent forms are out of the modelled
subset and fail). -/
def parseNum (cs : List Char) : Option (Int × List Char) :=
  match cs with
  | '-' :: rest =>
    match rest.takeWhile Char.isDigit, rest.dropWhile Char.isDigit with
    | [], _ => none
    | ds, rem => if startsFracOrExp rem then none else some (-(digitsToNat ds : Int), rem)
  | _ =>
    match cs.takeWhile Char.isDigit, cs.dropWhile Char.isDigit with
    | [], _ => none
    | ds, rem => if startsFracOrExp rem then none else some ((digitsToNat ds : Int), rem)

mutual

/-- Models JSON.parse reading one JSON value, returning it together with the
remaining input.  Object fields go through jsObjCanon, as JavaScript
normalizes own-property order and duplicate keys at object creation. -/
def parseValue : Nat → List Char → Option (JVal × List Char)
  | 0, _ => none
  | fuel + 1, cs =>
    match skipWs cs with
    | [] => none
    | c :: rest =>
      if c = '"' then
        match parseJStr fuel rest with
        | some (out, rem) => some (JVal.jstr (String.mk out), rem)
        | none => none
      else if c = Char.ofNat 123 then
        match skipWs rest with
        | c2 :: rest2 =>
          if c2 = Char.ofNat 125 then some (JVal.jobj [], rest2)
          else
            match parseMembers fuel (skipWs rest) with
            | some (fields, rem) => some (JVal.jobj (jsObjCanon fields), rem)
            | none => none
        | [] => none
      else if c = '[' then
        match skipWs rest with
        | c2 :: rest2 =>
          if c2 = ']' then some (JVal.jarr [], rest2)
          else
            match parseItems fuel (skipWs rest) with
            | some (xs, rem) => some (JVal.jarr xs, rem)
            | none => none
        | [] => none
      else if c = 't' then
        match rest with
        | 'r' :: 'u' :: 'e' :: rem => some (JVal.jbool true, rem)
        | _ => none
      else if c = 'f' then
        match rest with
        | 'a' :: 'l' :: 's' :: 'e' :: rem => some (JVal.jbool false, rem)
        | _ => none
      else if c = 'n' then
        match rest with
        | 'u' :: 'l' :: 'l' :: rem => some (JVal.jnull, rem)
        | _ => none
      else
        match parseNum (c :: rest) with
        | some (i, rem) => some (JVal.jnum i, rem)
        | none => none

/-- Models reading the comma-separated values of a nonempty JSON array,
up to and including the closing bracket. -/
def parseItems : Nat → List Char → Option (List JVal × List Char)
  | 0, _ => none
  | fuel + 1, cs =>
    match parseValue fuel cs with
    | some (v, rem) =>
      match skipWs rem with
      | ',' :: rem2 =>
        match parseItems fuel rem2 with
        | some (vs, rem3) => some (v :: vs, rem3)
        | none => none
      | ']' :: rem2 => some ([v], rem2)
      | _ => none
    | none => none

/-- Models reading the comma-separated members of a nonempty JSON object,
up to and including the closing brace. -/
def parseMembers : Nat → List Char → Option (List (String × JVal) × List Char)
  | 0, _ => none
  | fuel + 1, cs =>
    match cs with
    | c :: rest =>
      if c = '"' then
        match parseJStr fuel rest with
        | some (kout, rem) =>
          match skipWs rem with
          | ':' :: rem2 =>
            match parseValue fuel rem2 with
            | some (v, rem3) =>
              match skipWs rem3 with
              | ',' :: rem4 =>
                match parseMembers fuel (skipWs rem4) with
                | some (fs, rem5) => some ((String.mk kout, v) :: fs, rem5)
                | none => none
              | cc :: rem4 =>
                if cc = Char.ofNat 125 then some ([(String.mk kout, v)], rem4) else none
              | [] => none
            | none => none
          | _ => none
        | none => none
      else none
    | [] => none

end

/-- Models JSON.parse on a string of the modelled JSON subset: none is a
parse failure (a thrown SyntaxError). -/
def parseJson (s : String) : Option JVal :=
  match parseValue (2 * s.data.length + 2) s.data with
  | some (v, rem) => if (skipWs rem).isEmpty then some v else none
  | none => none

example : parseJson "null" = some JVal.jnull := rfl
example : parseJson "  [1, 2]  " = some (JVal.jarr [JVal.jnum 1, JVal.jnum 2]) := rfl
example : parseJson "\"a\\\"b\"" = some (JVal.jstr "a\"b") := rfl
example : parseJson "undefined" = none := rfl
example : parseJson "\x7b\"a\":\"x\",\"b\":[true]\x7d" =
    some (JVal.jobj [("a", JVal.jstr "x"), ("b", JVal.jarr [JVal.jbool true])]) := rfl
example : parseJson "[[\"msg-1\",[[\"👍\",[\"alice\"]]]]]" =
    some (JVal.jarr [JVal.jarr [JVal.jstr "msg-1",
      JVal.jarr [JVal.jarr [JVal.jstr "👍", JVal.jarr [JVal.jstr "alice"]]]]]) := rfl

/-- The per-message reaction table: emoji ↦ users who reacted, a Map in
insertion order (source type Map of string to string array). -/
abbrev ReactionsMap : Type := List (String × List String)

/-- The full reaction state messageReactions: message id ↦ per-message
reaction table (source type MessageReactions). -/
abbrev MessageReactions : Type := List (String × ReactionsMap)

/-- Embeds updateLocalReaction: toggle userId under emoji for messageId.
If the user is present it is filtered out (dropping the emoji entry when the
remaining list is empty), otherwise it is appended at the end. -/
def updateLocalReaction (st : MessageReactions) (messageId emoji userId : String) :
    MessageReactions :=
  let reactions := (alookup messageId st).getD []
  let users := (alookup emoji reactions).getD []
  let isRemoving := users.contains userId
  let reactions' :=
    if isRemoving then
      let updatedUsers := users.filter (fun user => user != userId)
      if updatedUsers.length = 0 then adel emoji reactions
      else aset emoji updatedUsers reactions
    else aset emoji (users ++ [userId]) reactions
  aset messageId reactions' st

/-- The reactor list stored for an emoji under a message id, if any. -/
def getUsers (st : MessageReactions) (messageId emoji : String) : Option (List String) :=
  (alookup messageId st).bind (fun reactions => alookup emoji reactions)

/-- No emoji entry in the state carries an empty reactor list. -/
def noEmptyEntries (st : MessageReactions) : Bool :=
  st.all (fun p => p.2.all (fun q => !q.2.isEmpty))

/-- No user identifier appears twice in one reactor list of the state. -/
def noDuplicateUsers (st : MessageReactions) : Bool :=
  st.all (fun p => p.2.all (fun q => decide q.2.Nodup))

/-- A sequence of local toggles (messageId, emoji, userId), applied left to
right. -/
def applyToggles (st : MessageReactions) (ops : List (String × String × String)) :
    MessageReactions :=
  ops.foldl (fun s op => updateLocalReaction s op.1 op.2.1 op.2.2) st

/-- Models JavaScript property access on a parsed JSON value: undefined
(none) unless the value is an object with the field.  Property access on
null throws, but every use site sits in a try block whose catch leaves the
state unchanged, exactly as the undefined path does. -/
def getField (v : JVal) (k : String) : Option JVal :=
  match v with
  | .jobj fields => alookup k fields
  | _ => none

/-- Models using a property value as a string (a Map key the program later
treats as a message id or emoji): a non-string is represented by its
String() coercion, an absent property by undefined. -/
def strOfField : Option JVal → String
  | some (.jstr s) => s
  | some v => jsToString v
  | none => "undefined"

/-- Models reading r.users: the program keeps the raw value when it is an
array (entries represented by their string coercion) and anything else
surfaces as an empty list. -/
def usersOfField : Option JVal → List String
  | some (.jarr xs) => jsToStringList xs
  | _ => []

/-- Embeds one step of updateReactionsState: building the Map entry
[r.emoji, r.users] for one element of a parsed reactions array.  A null
element throws on property access (none); any other non-object yields the
undefined-keyed entry without throwing. -/
def toEmojiUsers (r : JVal) : Option (String × List String) :=
  match r with
  | .jnull => none
  | .jobj fields => some (strOfField (alookup "emoji" fields), usersOfField (alookup "users" fields))
  | _ => some (strOfField none, usersOfField none)

/-- Embeds one step of updateReactionsState: building the entry
[data.messageId, new Map(data.reactions.map(...))] for one element of the
parsed top-level array.  Accessing .map on a missing or non-array
data.reactions throws (none), as does property access on null. -/
def toMessageReaction (v : JVal) : Option (String × ReactionsMap) :=
  match v with
  | .jobj fields =>
    match alookup "reactions" fields with
    | some (.jarr rs) =>
      match rs.mapM toEmojiUsers with
      | some pairs => some (strOfField (alookup "messageId" fields), dedupKeys pairs)
      | none => none
    | _ => none
  | _ => none

/-- Embeds updateReactionsState: JSON.parse the reactions payload (coerced
to a string when it is not one; an absent field parses the text undefined
and fails) and replace the whole state by the rebuilt Map; any throw is
caught and leaves the state unchanged. -/
def updateReactionsState (reactionsField : Option JVal) (st : MessageReactions) :
    MessageReactions :=
  let s :=
    match reactionsField with
    | none => "undefined"
    | some v => jsToString v
  match parseJson s with
  | some (.jarr items) =>
    match items.mapM toMessageReaction with
    | some entries => dedupKeys entries
    | none => st
  | _ => st

/-- Embeds handleWebSocketMessage: JSON.parse the frame text; when the
parsed frame has type equal to update_reactions, hand its top-level
reactions property to updateReactionsState; all errors are caught and leave
the state unchanged. -/
def handleWebSocketMessage (raw : String) (st : MessageReactions) : MessageReactions :=
  match parseJson raw with
  | none => st
  | some frame =>
    match getField frame "type" with
    | some (.jstr t) =>
      if t = "update_reactions" then updateReactionsState (getField frame "reactions") st
      else st
    | _ => st

/-- Embeds the object built by saveToLocalStorage:
Object.fromEntries over the state, with each per-message Map converted by
Object.fromEntries to an object of arrays. -/
def saveFields (st : MessageReactions) : List (String × JVal) :=
  jsObjCanon (st.map (fun p =>
    (p.1, JVal.jobj (jsObjCanon (p.2.map (fun q => (q.1, JVal.jarr (q.2.map JVal.jstr))))))))

/-- Embeds saveToLocalStorage as the JSON document it writes.  The stored
string is JSON.stringify of this document; JSON.stringify and JSON.parse
are mutually inverse on documents, so storage is modelled at the document
level. -/
def saveToLocalStorage (st : MessageReactions) : JVal := JVal.jobj (saveFields st)

/-- Embeds the success path of loadReactionsFromStorage: rebuild the state
from Object.entries of the parsed snapshot, keeping a users value only when
it is an array (Array.isArray check). -/
def loadDocAsState (doc : JVal) : MessageReactions :=
  (jsEntries doc).map (fun p => (p.1, (jsEntries p.2).map (fun q => (q.1, usersOfField (some q.2)))))

/-- Embeds loadReactionsFromStorage.  The stored entry is modelled by the
parse result of its text: none means no entry (the saved check fails, state
kept), some none a stored string JSON.parse rejects (catch: state reset to
the empty Map), some (some doc) a stored string parsing to doc. -/
def loadReactionsFromStorage (saved : Option (Option JVal)) (st : MessageReactions) :
    MessageReactions :=
  match saved with
  | none => st
  | some none => []
  | some (some doc) => loadDocAsState doc

/-- Characters encodeURIComponent leaves unescaped. -/
def isUriUnreserved (c : Char) : Bool :=
  c.isAlpha || c.isDigit || c = '-' || c = '_' || c = '.' || c = '!' || c = '~' ||
    c = '*' || c = Char.ofNat 39 || c = '(' || c = ')'

/-- The UTF-8 bytes of a character (Lean characters are Unicode scalar
values, so the lone-surrogate URIError path of encodeURIComponent cannot
arise). -/
def utf8Bytes (c : Char) : List Nat :=
  let n := c.toNat
  if n < 128 then [n]
  else if n < 2048 then [192 + n / 64, 128 + n % 64]
  else if n < 65536 then [224 + n / 4096, 128 + n / 64 % 64, 128 + n % 64]
  else [240 + n / 262144, 128 + n / 4096 % 64, 128 + n / 64 % 64, 128 + n % 64]

def hexDigitChar (n : Nat) : Char := if n < 10 then Char.ofNat (48 + n) else Char.ofNat (55 + n)

def percentEncodeByte (b : Nat) : List Char := ['%', hexDigitChar (b / 16), hexDigitChar (b % 16)]

def uriEncodeChar (c : Char) : List Char :=
  if isUriUnreserved c then [c] else ((utf8Bytes c).map percentEncodeByte).flatten

/-- Embeds encodeURIComponent. -/
def encodeURIComponent (s : String) : String := String.mk ((s.data.map uriEncodeChar).flatten)

def b64Char (n : Nat) : Char :=
  "ABCDEFGHIJKLMNOPQRSTUVWXYZabcdefghijklmnopqrstuvwxyz0123456789+/".data.getD n 'A'

def btoaBytes : List Nat → List Char
  | [] => []
  | [a] => [b64Char (a / 4), b64Char (a % 4 * 16), '=', '=']
  | [a, b] => [b64Char (a / 4), b64Char (a % 4 * 16 + b / 16), b64Char (b % 16 * 4), '=']
  | a :: b :: c :: rest =>
    b64Char (a / 4) :: b64Char (a % 4 * 16 + b / 16) :: b64Char (b % 16 * 4 + c / 64) ::
      b64Char (c % 64) :: btoaBytes rest

/-- Embeds btoa.  Its input here is always output of encodeURIComponent,
which is ASCII, so the over-255 InvalidCharacterError path cannot arise. -/
def btoa (s : String) : String := String.mk (btoaBytes (s.data.map Char.toNat))

/-- The character class kept by the replace of generateMessageId (the
regular expression strips everything outside a-z, A-Z, 0-9). -/
def isAlnumChar (c : Char) : Bool := c.isAlpha || c.isDigit

/-- Embeds generateMessageId.  The three inputs are the textContent of the
username, body text and timestamp sub-elements, none when the sub-element
is absent (the source then defaults to the empty string). -/
def generateMessageId (user text timestamp : Option String) : String :=
  let u := user.getD ""
  let t := text.getD ""
  let ts := timestamp.getD ""
  let uniqueString := u ++ "-" ++ t ++ "-" ++ ts
  "msg-" ++ String.mk (((btoa (encodeURIComponent uniqueString)).data.filter isAlnumChar).take 32)

/-- The config constant maxReconnectAttempts. -/
def maxReconnectAttempts : Nat := 5

/-- The config constant reconnectDelay (milliseconds). -/
def reconnectDelay : Nat := 3000

/-- Embeds handleReconnection: given the current retry counter, the new
counter and whether a reconnect was scheduled (the setTimeout branch). -/
def handleReconnection (reconnectAttempts : Nat) : Nat × Bool :=
  if reconnectAttempts < maxReconnectAttempts then (reconnectAttempts + 1, true)
  else (reconnectAttempts, false)

/-- Embeds the onopen handler effect on the retry counter: reset to zero. -/
def wsOnOpen (_ : Nat) : Nat := 0

/-- The retry counter after n close or error events of one connect
lifecycle with no successful open in between. -/
def retryCounterAfterFailures : Nat → Nat
  | 0 => 0
  | n + 1 => (handleReconnection (retryCounterAfterFailures n)).1

/-- Embeds processQueue: while the connection is ready and the queue is
nonempty, shift the head and try to send it; on success recurse on the
rest, on failure unshift the head back and stop.  Returns the messages sent
in order and the remaining queue. -/
def processQueue {α : Type u} (ready : Bool) (sendOk : α → Bool) : List α → List α × List α
  | [] => ([], [])
  | m :: rest =>
    if ready then
      if sendOk m then
        (m :: (processQueue ready sendOk rest).1, (processQueue ready sendOk rest).2)
      else ([], m :: rest)
    else ([], m :: rest)

/-- Embeds queueMessage: push the message at the tail, then processQueue. -/
def queueMessage {α : Type u} (ready : Bool) (sendOk : α → Bool) (q : List α) (m : α) :
    List α × List α :=
  processQueue ready sendOk (q ++ [m])

inductive RAction : Type where
  | add : RAction
  | remove : RAction
deriving DecidableEq

/-- The reaction_update message payload built by sendReactionUpdate. -/
structure UpdateMsg : Type where
  messageId : String
  emoji : String
  userId : String
  action : RAction
deriving DecidableEq

/-- Embeds getReactionAction: remove when the user is already listed under
the emoji for the message, add otherwise. -/
def getReactionAction (st : MessageReactions) (messageId emoji userId : String) : RAction :=
  let users := (alookup emoji ((alookup messageId st).getD [])).getD []
  if users.contains userId then RAction.remove else RAction.add

def mkReactionUpdate (st : MessageReactions) (messageId emoji userId : String) : UpdateMsg :=
  ⟨messageId, emoji, userId, getReactionAction st messageId emoji userId⟩

/-- The observable outcome of one addReaction call: the reaction state, the
outbound queue, the stored snapshot document (none when nothing was ever
stored), and whether the display was re-rendered. -/
structure AddReactionResult : Type where
  reactions : MessageReactions
  queue : List UpdateMsg
  storage : Option JVal
  displayUpdated : Bool

/-- Embeds addReaction.  ready is the isConnectionReady check; sendOk models
whether this.ws.send would throw for a message.  With no user name it
returns early.  Otherwise sendReactionUpdate either sends directly (ready)
or queues the message and resolves (not ready); only a send that throws
reaches the catch and skips the local update, re-render and storage
write. -/
def addReaction (ready : Bool) (sendOk : UpdateMsg → Bool) (currentUserName : Option String)
    (st : MessageReactions) (q : List UpdateMsg) (storage : Option JVal)
    (messageId emoji : String) : AddReactionResult :=
  match currentUserName with
  | none => ⟨st, q, storage, false⟩
  | some userId =>
    let msg := mkReactionUpdate st messageId emoji userId
    if ready then
      if sendOk msg then
        let st' := updateLocalReaction st messageId emoji userId
        ⟨st', q, some (saveToLocalStorage st'), true⟩
      else ⟨st, q, storage, false⟩
    else
      let q' := (processQueue false sendOk (q ++ [msg])).2
      let st' := updateLocalReaction st messageId emoji userId
      ⟨st', q', some (saveToLocalStorage st'), true⟩

/-- Embeds the state effect of addReactionButton: when the container is not
yet marked and the state has no entry for the derived id, Map.set inserts
an entry with an empty reaction Map. -/
def addReactionButton (hasReactions : Bool) (st : MessageReactions) (messageId : String) :
    MessageReactions :=
  if hasReactions then st
  else if (alookup messageId st).isSome then st
  else st ++ [(messageId, [])]

/-- Embeds the reactions payload built by sendInitialState:
JSON.stringify(Array.from(this.messageReactions.entries())).  Each entry
serializes as [messageId, serialized inner Map]; JSON.stringify serializes
a Map as an empty object, since a Map has no enumerable own properties. -/
def initialStateEntries (st : MessageReactions) : List JVal :=
  st.map (fun p => JVal.jarr [JVal.jstr p.1, JVal.jobj []])

def initialStateReactionsDoc (st : MessageReactions) : JVal :=
  JVal.jarr (initialStateEntries st)

example : updateLocalReaction [] "m" "e" "u" = [("m", [("e", ["u"])])] := rfl
example : updateLocalReaction [("m", [("e", ["u"])])] "m" "e" "u" = [("m", [])] := rfl
example : updateLocalReaction [("m", [("e", ["u", "v"])])] "m" "e" "u" = [("m", [("e", ["v"])])] := rfl

/-- The effect of one toggle on the reactor list stored for the toggled
(messageId, emoji): helper description used to reason about double
toggles. -/
def toggledUsers (users : List String) (u : String) : Option (List String) :=
  if users.contains u then
    if (users.filter (fun x => x != u)).length = 0 then none
    else some (users.filter (fun x => x != u))
  else some (users ++ [u])

theorem getUsers_getD (st : MessageReactions) (mid e : String) :
    ((alookup e ((alookup mid st).getD [])).getD []) = (getUsers st mid e).getD [] := by
  cases h : alookup mid st <;> simp [getUsers, h, alookup]

theorem updateLocalReaction_eq (st : MessageReactions) (mid e u : String) :
    updateLocalReaction st mid e u =
      aset mid
        (if ((alookup e ((alookup mid st).getD [])).getD []).contains u then
          if ((((alookup e ((alookup mid st).getD [])).getD []).filter
              (fun x => x != u)).length = 0)
          then adel e ((alookup mid st).getD [])
          else aset e (((alookup e ((alookup mid st).getD [])).getD []).filter
            (fun x => x != u)) ((alookup mid st).getD [])
        else aset e ((((alookup e ((alookup mid st).getD [])).getD [])) ++ [u])
          ((alookup mid st).getD [])) st := rfl

theorem getUsers_aset_self (st : MessageReactions) (mid e : String) (r : ReactionsMap) :
    getUsers (aset mid r st) mid e = alookup e r := by
  simp [getUsers, alookup_aset]

theorem getUsers_toggle_self (st : MessageReactions) (mid e u : String) :
    getUsers (updateLocalReaction st mid e u) mid e =
      toggledUsers ((getUsers st mid e).getD []) u := by
  rw [updateLocalReaction_eq, getUsers_aset_self]
  simp only [getUsers_getD]
  unfold toggledUsers
  split_ifs with h1 h2
  · rw [alookup_adel, if_pos rfl]
  · rw [alookup_aset, if_pos rfl]
  · rw [alookup_aset, if_pos rfl]

theorem contains_eq_false_of_not_mem {l : List String} {u : String} (h : u ∉ l) :
    l.contains u = false := by
  cases hb : l.contains u
  · rfl
  · exact absurd (List.elem_iff.mp hb) h

theorem filter_bne_eq_self {l : List String} {u : String} (h : u ∉ l) :
    l.filter (fun x => x != u) = l := by
  rw [List.filter_eq_self]
  intro a ha
  simp only [bne_iff_ne, ne_eq]
  exact fun he => h (he ▸ ha)

theorem not_mem_filter_bne (l : List String) (u : String) :
    u ∉ l.filter (fun x => x != u) := by
  intro hm
  have := List.mem_filter.mp hm
  simp at this

/-- C5: for one connect lifecycle, each close or error event increments the
retry counter and schedules a reconnect only while the counter is below
maxReconnectAttempts = 5; a successful open resets the counter to zero;
after 5 consecutive failures with no open the counter stays at 5 and no
further reconnect is ever scheduled, so a 6th attempt never fires. -/
theorem c5_reconnect_bound (n a : Nat) :
    retryCounterAfterFailures n = min n maxReconnectAttempts ∧
    (handleReconnection a).1 = (if a < maxReconnectAttempts then a + 1 else a) ∧
    ((handleReconnection a).2 = true ↔ a < maxReconnectAttempts) ∧
    ((handleReconnection (retryCounterAfterFailures n)).2 = true ↔ n < maxReconnectAttempts) ∧
    wsOnOpen a = 0 := by
  have hmin : ∀ m : Nat, retryCounterAfterFailures m = min m maxReconnectAttempts := by
    intro m
    induction m with
    | zero => rfl
    | succ m ih =>
      rw [retryCounterAfterFailures, ih, handleReconnection]
      unfold maxReconnectAttempts
      split <;> omega
  refine ⟨hmin n, ?_, ?_, ?_, rfl⟩
  · rw [handleReconnection]
    split <;> rfl
  · rw [handleReconnection]
    split <;> simp_all
  · rw [hmin n, handleReconnection]
    unfold maxReconnectAttempts
    split <;> simp <;> omega

/-- C7: message identity derivation is a pure function of the three
extracted fields (username, body text, timestamp, each defaulting to the
empty string when absent): it concatenates them with a dash separator,
applies encodeURIComponent then btoa, strips the non-alphanumeric
characters, truncates to 32 characters and prefixes msg-, so it is
deterministic and its output never exceeds 36 characters. -/
theorem c7_message_id_pure (user text timestamp : Option String) :
    generateMessageId user text timestamp =
      "msg-" ++ String.mk (((btoa (encodeURIComponent
        ((user.getD "") ++ "-" ++ (text.getD "") ++ "-" ++ (timestamp.getD "")))).data.filter
          isAlnumChar).take 32) ∧
    generateMessageId user text timestamp = generateMessageId user text timestamp ∧
    (generateMessageId user text timestamp).length ≤ 36 := by
  refine ⟨rfl, rfl, ?_⟩
  have hmk : ∀ l : List Char, (String.mk l).length = l.length := fun l => rfl
  rw [generateMessageId, String.length_append]
  simp only [hmk, List.length_take]
  have h4 : (['m', 's', 'g', '-'] : List Char).length = 4 := rfl
  omega

/-- C8: enqueuing appends at the tail and immediately drains; the drain
pops from the head, and a failed send puts the popped message back at the
head and stops; while disconnected nothing is sent; and when the connection
is ready and no send fails the whole queue is transmitted in FIFO order. -/
theorem c8_queue_fifo {α : Type} (ready : Bool) (sendOk : α → Bool) (q rest : List α) (m : α) :
    queueMessage ready sendOk q m = processQueue ready sendOk (q ++ [m]) ∧
    ((∀ x ∈ q, sendOk x = true) → processQueue true sendOk q = (q, [])) ∧
    (sendOk m = false → processQueue true sendOk (m :: rest) = ([], m :: rest)) ∧
    processQueue false sendOk q = ([], q) := by
  refine ⟨rfl, ?_, ?_, ?_⟩
  · intro hall
    induction q with
    | nil => rfl
    | cons a q' ih =>
      have ha : sendOk a = true := hall a (List.mem_cons_self _ _)
      have ih' := ih (fun x hx => hall x (List.mem_cons_of_mem _ hx))
      simp [processQueue, ha, ih']
  · intro hm
    simp [processQueue, hm]
  · cases q <;> simp [processQueue]

/-- Witness for c8_queue_fifo at concrete inputs. -/
theorem c8_queue_fifo_witness :
    processQueue true (fun _ : Nat => true) [1, 2] = ([1, 2], []) ∧
    processQueue true (fun _ : Nat => false) (1 :: [2]) = ([], 1 :: [2]) := by
  constructor
  · exact (c8_queue_fifo true (fun _ : Nat => true) [1, 2] [] 0).2.1 (by decide)
  · exact (c8_queue_fifo true (fun _ : Nat => false) [] [2] 1).2.2.1 rfl

/-- C3 counterexample: the claim says a double toggle restores the reactor
list exactly; toggling bob twice on the list [bob, alice] instead yields
[alice, bob], because the re-add appends at the end. -/
theorem c3_counterexample :
    getUsers [("m", [("e", ["bob", "alice"])])] "m" "e" = some ["bob", "alice"] ∧
    getUsers (updateLocalReaction (updateLocalReaction
        [("m", [("e", ["bob", "alice"])])] "m" "e" "bob") "m" "e" "bob") "m" "e" =
      some ["alice", "bob"] ∧
    (["alice", "bob"] : List String) ≠ ["bob", "alice"] := by
  refine ⟨rfl, by decide, by decide⟩

/-- C3 (amended): a double toggle of (messageId, emoji, userId) restores
the reactor list exactly when the user was not in it (and the stored list
was not empty), and in general restores the same set: when the user was
present, the result is the prior list with the user filtered out and
re-appended at the end. -/
theorem c3_double_toggle (st : MessageReactions) (mid e u : String) :
    (getUsers st mid e = none →
      getUsers (updateLocalReaction (updateLocalReaction st mid e u) mid e u) mid e = none) ∧
    (∀ l, getUsers st mid e = some l → u ∉ l → l ≠ [] →
      getUsers (updateLocalReaction (updateLocalReaction st mid e u) mid e u) mid e = some l) ∧
    (∀ l, getUsers st mid e = some l → u ∈ l →
      getUsers (updateLocalReaction (updateLocalReaction st mid e u) mid e u) mid e =
        some (l.filter (fun x => x != u) ++ [u])) := by
  refine ⟨?_, ?_, ?_⟩
  · intro h
    rw [getUsers_toggle_self, getUsers_toggle_self, h]
    simp [toggledUsers]
  · intro l h hu hne
    rw [getUsers_toggle_self, getUsers_toggle_self, h, Option.getD_some]
    have hc : l.contains u = false := contains_eq_false_of_not_mem hu
    have hinner : toggledUsers l u = some (l ++ [u]) := by
      rw [toggledUsers, hc]
      simp
    rw [hinner, Option.getD_some]
    have hc2 : (l ++ [u]).contains u = true := by
      simp [List.elem_iff]
    have hfil : (l ++ [u]).filter (fun x => x != u) = l := by
      rw [List.filter_append, filter_bne_eq_self hu]
      simp [List.filter]
    rw [toggledUsers, hc2, if_pos rfl, hfil]
    rw [if_neg (fun hz : l.length = 0 => hne (List.length_eq_zero.mp hz))]
  · intro l h hu
    rw [getUsers_toggle_self, getUsers_toggle_self, h, Option.getD_some]
    have hc : l.contains u = true := List.elem_iff.mpr hu
    by_cases hl : (l.filter (fun x => x != u)).length = 0
    · have hfe : l.filter (fun x => x != u) = [] := List.length_eq_zero.mp hl
      have hinner : toggledUsers l u = none := by
        rw [toggledUsers, hc, if_pos rfl, if_pos hl]
      rw [hinner, hfe]
      simp [toggledUsers]
    · have hinner : toggledUsers l u = some (l.filter (fun x => x != u)) := by
        rw [toggledUsers, hc, if_pos rfl, if_neg hl]
      rw [hinner, Option.getD_some]
      have hc2 : (l.filter (fun x => x != u)).contains u = false :=
        contains_eq_false_of_not_mem (not_mem_filter_bne l u)
      rw [toggledUsers, hc2]
      simp

/-- Witness for c3_double_toggle at concrete inputs. -/
theorem c3_double_toggle_witness :
    getUsers (updateLocalReaction (updateLocalReaction
        [("m", [("e", ["u", "a"])])] "m" "e" "u") "m" "e" "u") "m" "e" =
      some ((["u", "a"] : List String).filter (fun x => x != "u") ++ ["u"]) := by
  exact (c3_double_toggle [("m", [("e", ["u", "a"])])] "m" "e" "u").2.2
    ["u", "a"] rfl (by decide)

theorem mem_aset {α : Type u} {x : String × α} {k : String} {v : α} {l : List (String × α)}
    (h : x ∈ aset k v l) : x = (k, v) ∨ x ∈ l := by
  induction l with
  | nil => simpa [aset] using h
  | cons p rest ih =>
    obtain ⟨k₀, v₀⟩ := p
    by_cases hp : k₀ = k
    · rw [aset_cons, if_pos hp] at h
      rcases List.mem_cons.mp h with h1 | h1
      · exact Or.inl h1
      · exact Or.inr (List.mem_cons_of_mem _ h1)
    · rw [aset_cons, if_neg hp] at h
      rcases List.mem_cons.mp h with h1 | h1
      · exact Or.inr (h1 ▸ List.mem_cons_self _ _)
      · rcases ih h1 with h2 | h2
        · exact Or.inl h2
        · exact Or.inr (List.mem_cons_of_mem _ h2)

theorem mem_adel {α : Type u} {x : String × α} {k : String} {l : List (String × α)}
    (h : x ∈ adel k l) : x ∈ l := by
  induction l with
  | nil => simp [adel] at h
  | cons p rest ih =>
    obtain ⟨k₀, v₀⟩ := p
    by_cases hp : k₀ = k
    · rw [adel_cons, if_pos hp] at h
      exact List.mem_cons_of_mem _ (ih h)
    · rw [adel_cons, if_neg hp] at h
      rcases List.mem_cons.mp h with h1 | h1
      · exact h1 ▸ List.mem_cons_self _ _
      · exact List.mem_cons_of_mem _ (ih h1)

theorem isEmpty_false_of_ne_nil {α : Type u} {l : List α} (h : l ≠ []) : l.isEmpty = false := by
  cases l with
  | nil => exact absurd rfl h
  | cons a l => rfl

theorem noEmptyEntries_aset {st : MessageReactions} {mid : String} {r : ReactionsMap}
    (h1 : noEmptyEntries st = true) (hr : ∀ q ∈ r, (!q.2.isEmpty) = true) :
    noEmptyEntries (aset mid r st) = true := by
  rw [noEmptyEntries, List.all_eq_true]
  intro p hp
  rcases mem_aset hp with h | h
  · subst h
    exact List.all_eq_true.mpr hr
  · exact List.all_eq_true.mp h1 p h

theorem noDuplicateUsers_aset {st : MessageReactions} {mid : String} {r : ReactionsMap}
    (h2 : noDuplicateUsers st = true) (hr : ∀ q ∈ r, q.2.Nodup) :
    noDuplicateUsers (aset mid r st) = true := by
  rw [noDuplicateUsers, List.all_eq_true]
  intro p hp
  rcases mem_aset hp with h | h
  · subst h
    exact List.all_eq_true.mpr (fun q hq => decide_eq_true (hr q hq))
  · exact List.all_eq_true.mp h2 p h

/-- Facts available for every entry of the per-message reaction table of a
well-formed state. -/
theorem inner_entry_facts {st : MessageReactions} (mid : String)
    (h1 : noEmptyEntries st = true) (h2 : noDuplicateUsers st = true) :
    ∀ q ∈ ((alookup mid st).getD ([] : ReactionsMap)), (!q.2.isEmpty) = true ∧ q.2.Nodup := by
  cases hm : alookup mid st with
  | none =>
    intro q hq
    simp at hq
  | some rs =>
    intro q hq
    have hmem := alookup_mem hm
    refine ⟨List.all_eq_true.mp (List.all_eq_true.mp h1 _ hmem) q hq, ?_⟩
    exact of_decide_eq_true (List.all_eq_true.mp (List.all_eq_true.mp h2 _ hmem) q hq)

/-- One local toggle preserves well-formedness of the state. -/
theorem toggle_preserves_wf (st : MessageReactions) (mid e u : String)
    (h1 : noEmptyEntries st = true) (h2 : noDuplicateUsers st = true) :
    noEmptyEntries (updateLocalReaction st mid e u) = true ∧
    noDuplicateUsers (updateLocalReaction st mid e u) = true := by
  have hreact := inner_entry_facts mid h1 h2
  have husersN : ((alookup e ((alookup mid st).getD [])).getD []).Nodup := by
    cases he : alookup e ((alookup mid st).getD ([] : ReactionsMap)) with
    | none => simp
    | some l => exact (hreact (e, l) (alookup_mem he)).2
  rw [updateLocalReaction_eq]
  split_ifs with hc hl
  · -- remove, list becomes empty: emoji entry deleted
    constructor
    · exact noEmptyEntries_aset h1 (fun q hq => (hreact q (mem_adel hq)).1)
    · exact noDuplicateUsers_aset h2 (fun q hq => (hreact q (mem_adel hq)).2)
  · -- remove, some users remain
    constructor
    · refine noEmptyEntries_aset h1 (fun q hq => ?_)
      rcases mem_aset hq with h | h
      · subst h
        simp only
        rw [isEmpty_false_of_ne_nil (fun hz => hl (by rw [hz]; rfl))]
        rfl
      · exact (hreact q h).1
    · refine noDuplicateUsers_aset h2 (fun q hq => ?_)
      rcases mem_aset hq with h | h
      · subst h
        exact husersN.filter _
      · exact (hreact q h).2
  · -- add: user appended at the end
    have hnotmem : u ∉ ((alookup e ((alookup mid st).getD [])).getD []) :=
      fun hm => hc (List.elem_iff.mpr hm)
    constructor
    · refine noEmptyEntries_aset h1 (fun q hq => ?_)
      rcases mem_aset hq with h | h
      · subst h
        simp only
        rw [isEmpty_false_of_ne_nil (by simp)]
        rfl
      · exact (hreact q h).1
    · refine noDuplicateUsers_aset h2 (fun q hq => ?_)
      rcases mem_aset hq with h | h
      · subst h
        simp only
        rw [List.nodup_append]
        exact ⟨husersN, List.nodup_singleton u,
          fun a ha hb => hnotmem ((List.mem_singleton.mp hb) ▸ ha)⟩
      · exact (hreact q h).2

/-- C4 counterexample: the claim preconditions only the absence of empty
emoji entries; a start state whose reactor list already holds a duplicate
satisfies that precondition, yet after a (here one-element) toggle sequence
the duplicate is still present. -/
theorem c4_counterexample :
    noEmptyEntries [("m", [("e", ["u", "u"])])] = true ∧
    noDuplicateUsers (applyToggles [("m", [("e", ["u", "u"])])] [("m2", "e", "v")]) = false := by
  constructor <;> decide

/-- C4 (amended): starting from a state with no empty emoji entries and no
duplicated user in any reactor list, after any finite sequence of local
toggles the state still has no empty emoji entry and no duplicated user in
any reactor list. -/
theorem c4_toggle_invariants (st : MessageReactions) (ops : List (String × String × String))
    (h1 : noEmptyEntries st = true) (h2 : noDuplicateUsers st = true) :
    noEmptyEntries (applyToggles st ops) = true ∧
    noDuplicateUsers (applyToggles st ops) = true := by
  induction ops generalizing st with
  | nil => exact ⟨h1, h2⟩
  | cons op rest ih =>
    have h' := toggle_preserves_wf st op.1 op.2.1 op.2.2 h1 h2
    have hstep : applyToggles st (op :: rest) =
        applyToggles (updateLocalReaction st op.1 op.2.1 op.2.2) rest := rfl
    rw [hstep]
    exact ih _ h'.1 h'.2

/-- Witness for c4_toggle_invariants at concrete inputs. -/
theorem c4_toggle_invariants_witness :
    noEmptyEntries (applyToggles [] [("m", "e", "u"), ("m", "e", "u")]) = true ∧
    noDuplicateUsers (applyToggles [] [("m", "e", "u"), ("m", "e", "u")]) = true :=
  c4_toggle_invariants [] [("m", "e", "u"), ("m", "e", "u")] rfl rfl

theorem processQueue_not_ready {α : Type u} (sendOk : α → Bool) (q : List α) :
    processQueue false sendOk q = ([], q) := by
  cases q <;> simp [processQueue]

/-- C1 counterexample: with the channel not open, addReaction queues the
reaction_update message, resolves, and still mutates the local state,
re-renders the display and writes the storage snapshot; the claim says all
of these stay unchanged whenever the send is not confirmed, including the
not-open case. -/
theorem c1_counterexample :
    (addReaction false (fun _ => true) (some "alice") [] [] none "m" "👍").reactions =
      [("m", [("👍", ["alice"])])] ∧
    (addReaction false (fun _ => true) (some "alice") [] [] none "m" "👍").queue =
      [⟨"m", "👍", "alice", RAction.add⟩] ∧
    (addReaction false (fun _ => true) (some "alice") [] [] none "m" "👍").storage.isSome = true ∧
    (addReaction false (fun _ => true) (some "alice") [] [] none "m" "👍").displayUpdated = true ∧
    ([("m", [("👍", ["alice"])])] : MessageReactions) ≠ [] := by
  refine ⟨rfl, rfl, rfl, rfl, by decide⟩

/-- C1 (amended): the local mutation happens exactly when sendReactionUpdate
resolves.  When the channel is open, a send that throws leaves state, queue,
display and storage unchanged, and a successful send is followed by the
local mutation, re-render and storage write.  When the channel is not open,
the message is queued unsent and the mutation, re-render and storage write
still happen.  Without a user name nothing changes. -/
theorem c1_toggle_after_send (ready : Bool) (sendOk : UpdateMsg → Bool)
    (user : Option String) (st : MessageReactions) (q : List UpdateMsg)
    (storage : Option JVal) (mid e : String) :
    (user = none → addReaction ready sendOk user st q storage mid e =
      ⟨st, q, storage, false⟩) ∧
    (∀ uid, user = some uid → ready = true →
      sendOk (mkReactionUpdate st mid e uid) = false →
      addReaction ready sendOk user st q storage mid e = ⟨st, q, storage, false⟩) ∧
    (∀ uid, user = some uid → ready = true →
      sendOk (mkReactionUpdate st mid e uid) = true →
      addReaction ready sendOk user st q storage mid e =
        ⟨updateLocalReaction st mid e uid, q,
          some (saveToLocalStorage (updateLocalReaction st mid e uid)), true⟩) ∧
    (∀ uid, user = some uid → ready = false →
      addReaction ready sendOk user st q storage mid e =
        ⟨updateLocalReaction st mid e uid, q ++ [mkReactionUpdate st mid e uid],
          some (saveToLocalStorage (updateLocalReaction st mid e uid)), true⟩) := by
  refine ⟨?_, ?_, ?_, ?_⟩
  · intro h
    subst h
    rfl
  · intro uid hu hr hs
    subst hu
    subst hr
    simp [addReaction, hs]
  · intro uid hu hr hs
    subst hu
    subst hr
    simp [addReaction, hs]
  · intro uid hu hr
    subst hu
    subst hr
    simp [addReaction, processQueue_not_ready]

/-- Witness for c1_toggle_after_send at concrete inputs. -/
theorem c1_toggle_after_send_witness :
    addReaction true (fun _ => false) (some "u") [("m", [("e", ["u"])])] [] none "m" "e" =
      ⟨[("m", [("e", ["u"])])], [], none, false⟩ :=
  (c1_toggle_after_send true (fun _ => false) (some "u")
    [("m", [("e", ["u"])])] [] none "m" "e").2.1 "u" rfl rfl rfl

theorem map_fst_map_value {α β : Type u} (f : α → β) (l : List (String × α)) :
    (l.map (fun p => (p.1, f p.2))).map Prod.fst = l.map Prod.fst := by
  induction l <;> simp_all

/-- The object a per-message reaction Map becomes inside the storage
snapshot (Object.fromEntries of emoji to user array). -/
def encInner (r : ReactionsMap) : JVal :=
  JVal.jobj (jsObjCanon (r.map (fun q => (q.1, JVal.jarr (q.2.map JVal.jstr)))))

theorem saveFields_eq (st : MessageReactions) :
    saveFields st = jsObjCanon (st.map (fun p => (p.1, encInner p.2))) := rfl

/-- C10: attaching reaction controls to a message whose derived id has no
entry in the state inserts an entry with an empty reaction Map, so the
state then holds a message identity with zero reactions, the storage
snapshot contains that id mapped to an empty object, and the initial
full-state payload contains the entry [id, empty object]. -/
theorem c10_empty_entries (st : MessageReactions) (mid : String)
    (hnd : (st.map Prod.fst).Nodup) (habs : alookup mid st = none) :
    alookup mid (addReactionButton false st mid) = some [] ∧
    alookup mid (saveFields (addReactionButton false st mid)) = some (JVal.jobj []) ∧
    JVal.jarr [JVal.jstr mid, JVal.jobj []] ∈
      initialStateEntries (addReactionButton false st mid) := by
  have hbtn : addReactionButton false st mid = st ++ [(mid, [])] := by
    simp [addReactionButton, habs]
  rw [hbtn]
  have hmemk : mid ∉ st.map Prod.fst := not_mem_of_alookup_eq_none habs
  refine ⟨?_, ?_, ?_⟩
  · rw [alookup_append, habs]
    simp [alookup]
  · rw [saveFields_eq]
    have hmap : (st ++ [(mid, ([] : ReactionsMap))]).map
          (fun (p : String × ReactionsMap) => (p.1, encInner p.2)) =
        st.map (fun (p : String × ReactionsMap) => (p.1, encInner p.2)) ++
          [(mid, JVal.jobj [])] := by
      rw [List.map_append]
      rfl
    rw [hmap]
    have hnd' : ((st.map (fun p => (p.1, encInner p.2)) ++
        [(mid, JVal.jobj [])]).map Prod.fst).Nodup := by
      rw [List.map_append, map_fst_map_value, List.nodup_append]
      refine ⟨hnd, ?_, ?_⟩
      · simp
      · intro a ha hb
        have he : a = mid := by simpa using hb
        exact hmemk (he ▸ ha)
    rw [alookup_jsObjCanon hnd', alookup_append, alookup_map_value, habs]
    simp [alookup]
  · rw [initialStateEntries]
    simp

/-- Witness for c10_empty_entries at concrete inputs. -/
theorem c10_empty_entries_witness :
    alookup "m" (addReactionButton false [("a", [("e", ["u"])])] "m") = some [] ∧
    alookup "m" (saveFields (addReactionButton false [("a", [("e", ["u"])])] "m")) =
      some (JVal.jobj []) ∧
    JVal.jarr [JVal.jstr "m", JVal.jobj []] ∈
      initialStateEntries (addReactionButton false [("a", [("e", ["u"])])] "m") :=
  c10_empty_entries [("a", [("e", ["u"])])] "m" (by decide) rfl

/-- The inbound frame text of the C2 claim: the reactions payload (a
pair-array encoding) sits nested under data. -/
def frameNestedPairs : String :=
  "\x7b\"type\":\"update_reactions\",\"data\":\x7b\"reactions\":\"[[\\\"msg-1\\\",[[\\\"👍\\\",[\\\"alice\\\"]]]]]\"\x7d\x7d"

/-- The same pair-array payload placed at the top-level reactions property
the handler actually reads. -/
def frameFlatPairs : String :=
  "\x7b\"type\":\"update_reactions\",\"reactions\":\"[[\\\"msg-1\\\",[[\\\"👍\\\",[\\\"alice\\\"]]]]]\"\x7d"

/-- A top-level reactions payload in the object encoding updateReactionsState
destructures: an array of objects with messageId and reactions fields, each
reaction an object with emoji and users fields. -/
def frameObjectForm : String :=
  "\x7b\"type\":\"update_reactions\",\"reactions\":\"[\x7b\\\"messageId\\\":\\\"msg-1\\\",\\\"reactions\\\":[\x7b\\\"emoji\\\":\\\"👍\\\",\\\"users\\\":[\\\"alice\\\"]\x7d]\x7d]\"\x7d"

/-- C2 counterexample: the claim's push carries reactions nested under data
and encoded as pair arrays; the handler reads the top-level reactions
property (undefined here), JSON.parse of undefined throws, the catch runs,
and the state stays empty instead of mapping msg-1 to a thumbs-up by
alice. -/
theorem c2_counterexample :
    handleWebSocketMessage frameNestedPairs [] = [] ∧
    alookup "msg-1" (handleWebSocketMessage frameNestedPairs []) = none := by
  exact ⟨rfl, rfl⟩

/-- C2 (amended): the handler reads the reactions payload from the frame's
top-level reactions property, and replaces the whole local state only when
that string parses to an array of objects with messageId and reactions
fields; a push in that shape carrying msg-1, 👍, alice makes the state map
msg-1 to exactly 👍 by alice, while both the claim's nested frame and the
claim's pair-array payload leave the state unchanged. -/
theorem c2_update_reactions_replace (st : MessageReactions) :
    handleWebSocketMessage frameObjectForm st = [("msg-1", [("👍", ["alice"])])] ∧
    handleWebSocketMessage frameFlatPairs st = st ∧
    handleWebSocketMessage frameNestedPairs st = st := by
  exact ⟨rfl, rfl, rfl⟩

/-- C9 counterexample: an inbound frame whose text is not valid JSON is
caught by the handler, but the state is left unchanged rather than reset to
the empty state the claim requires. -/
theorem c9_counterexample :
    handleWebSocketMessage "\x7boops" [("m", [("e", ["u"])])] = [("m", [("e", ["u"])])] ∧
    ([("m", [("e", ["u"])])] : MessageReactions) ≠ [] := by
  exact ⟨rfl, by decide⟩

/-- C9 (amended): malformed JSON never propagates an exception, but the two
sites differ: a malformed inbound frame (or a malformed nested reactions
string) is caught and leaves the reaction state unchanged, while a stored
snapshot that fails to parse is caught and resets the state to empty; an
absent stored entry also leaves the state unchanged. -/
theorem c9_malformed_handling (s : String) (st : MessageReactions) :
    (parseJson s = none → handleWebSocketMessage s st = st) ∧
    (parseJson s = none → updateReactionsState (some (JVal.jstr s)) st = st) ∧
    loadReactionsFromStorage (some none) st = [] ∧
    loadReactionsFromStorage none st = st := by
  refine ⟨?_, ?_, rfl, rfl⟩
  · intro h
    simp [handleWebSocketMessage, h]
  · intro h
    simp [updateReactionsState, jsToString, h]

/-- Witness for c9_malformed_handling at concrete inputs. -/
theorem c9_malformed_handling_witness :
    handleWebSocketMessage "x" [("m", [("e", ["u"])])] = [("m", [("e", ["u"])])] ∧
    updateReactionsState (some (JVal.jstr "x")) [("m", [("e", ["u"])])] =
      [("m", [("e", ["u"])])] ∧
    loadReactionsFromStorage (some none) [("m", [("e", ["u"])])] = [] ∧
    loadReactionsFromStorage none [("m", [("e", ["u"])])] = [("m", [("e", ["u"])])] := by
  have h := c9_malformed_handling "x" [("m", [("e", ["u"])])]
  exact ⟨h.1 rfl, h.2.1 rfl, h.2.2.1, h.2.2.2⟩

/-- The per-message reaction Map rebuilt from one stored object value
(Object.entries with the Array.isArray guard). -/
def decInner (v : JVal) : ReactionsMap :=
  (jsEntries v).map (fun q => (q.1, usersOfField (some q.2)))

theorem jsToStringList_map_jstr (us : List String) :
    jsToStringList (us.map JVal.jstr) = us := by
  induction us with
  | nil => rfl
  | cons a us ih => simp [jsToStringList, jsToString, ih]

theorem decInner_encInner {r : ReactionsMap} (hnd : (r.map Prod.fst).Nodup) (e : String) :
    alookup e (decInner (encInner r)) = alookup e r := by
  rw [encInner, decInner]
  have hent : jsEntries (JVal.jobj (jsObjCanon (r.map
      (fun q => (q.1, JVal.jarr (q.2.map JVal.jstr)))))) =
      jsObjCanon (r.map (fun q => (q.1, JVal.jarr (q.2.map JVal.jstr)))) := rfl
  rw [hent]
  have hndB : ((r.map (fun q => (q.1, JVal.jarr (q.2.map JVal.jstr)))).map Prod.fst).Nodup := by
    rw [map_fst_map_value (fun us : List String => JVal.jarr (us.map JVal.jstr)) r]
    exact hnd
  rw [alookup_map_value e (fun v : JVal => usersOfField (some v)),
    alookup_jsObjCanon hndB,
    alookup_map_value e (fun us : List String => JVal.jarr (us.map JVal.jstr)) r,
    Option.map_map]
  cases halk : alookup e r with
  | none => rfl
  | some us => simp [Function.comp, usersOfField, jsToStringList_map_jstr]

/-- C6: saving the state to session storage and loading it back yields an
equal reaction state: the same message identities are present, and every
(messageId, emoji) lookup returns the same reactor list in the same order.
The hypotheses state that the keys of the saved Maps are unique, which
holds of every JavaScript Map. -/
theorem c6_storage_roundtrip (st st₀ : MessageReactions)
    (hnd : (st.map Prod.fst).Nodup)
    (hinner : ∀ p ∈ st, (p.2.map Prod.fst).Nodup) (mid : String) :
    (alookup mid (loadReactionsFromStorage (some (some (saveToLocalStorage st))) st₀)).isSome =
      (alookup mid st).isSome ∧
    ∀ e, getUsers (loadReactionsFromStorage (some (some (saveToLocalStorage st))) st₀) mid e =
      getUsers st mid e := by
  have hload : loadReactionsFromStorage (some (some (saveToLocalStorage st))) st₀ =
      (jsObjCanon (st.map (fun p => (p.1, encInner p.2)))).map
        (fun p => (p.1, decInner p.2)) := rfl
  have hndA : ((st.map (fun p => (p.1, encInner p.2))).map Prod.fst).Nodup := by
    rw [map_fst_map_value]
    exact hnd
  have hkey : alookup mid (loadReactionsFromStorage (some (some (saveToLocalStorage st))) st₀) =
      (alookup mid st).map (fun r => decInner (encInner r)) := by
    rw [hload, alookup_map_value mid (fun v => decInner v),
      alookup_jsObjCanon hndA, alookup_map_value mid (fun r => encInner r), Option.map_map]
    rfl
  constructor
  · rw [hkey]
    cases alookup mid st <;> rfl
  · intro e
    rw [getUsers, getUsers, hkey]
    cases halk : alookup mid st with
    | none => rfl
    | some r =>
      simp only [Option.map_some', Option.some_bind]
      exact decInner_encInner (hinner (mid, r) (alookup_mem halk)) e

/-- Witness for c6_storage_roundtrip at concrete inputs. -/
theorem c6_storage_roundtrip_witness :
    getUsers (loadReactionsFromStorage (some (some (saveToLocalStorage
        [("m1", [("👍", ["alice", "bob"])]), ("m2", [])]))) []) "m1" "👍" =
      getUsers [("m1", [("👍", ["alice", "bob"])]), ("m2", [])] "m1" "👍" :=
  (c6_storage_roundtrip [("m1", [("👍", ["alice", "bob"])]), ("m2", [])] []
    (by decide) (by decide) "m1").2 "👍"
